import Mathlib

/-!
Verification of `view_db.py` (Pharmaceutical Intelligence Platform database viewer).

Shallow embedding of the single-file diagnostic script `view_db.py`.

The script is modelled as a pure function over an explicit database snapshot:

* a `Value` is a SQLite cell value as surfaced to Python by `sqlite3`
  (modelled variants: `NULL` / `INTEGER` / `TEXT`; `REAL` and `BLOB` cells do
  not occur in any claim and are out of the modelled scope);
* a `Table` is a name, a column-name list, and a list of rows (positional
  values, aligned with the column list, as `sqlite3.Row` exposes them);
* the run is state-passing over `St` (the list of `print` calls made so far
  and the list of SQL query strings executed so far), with an `Option String`
  error channel standing for a propagating Python exception — the script has
  no try/finally, so an error aborts the remaining statements of
  `view_database`, exactly as an exception would.

`format_json` and the JSON claims are handled by an executable model of
`json.loads` / `json.dumps(obj, indent=2)` further down.
-/

namespace ViewDb

/-- A SQLite cell value as seen from Python (`None`, `int`, `str`). -/
inductive Value where
  | vnull
  | vint (i : Int)
  | vtext (s : String)
deriving DecidableEq, Repr

/-- Python truthiness of a cell value (`if value:`): `None`, `0` and `""` are
falsy. -/
def truthy : Value → Bool
  | .vnull => false
  | .vint i => i != 0
  | .vtext s => !s.isEmpty

/-- Python `str(value)` as used by `print(f"  {col}: {value}")`. -/
def pyStr : Value → String
  | .vnull => "None"
  | .vint i => toString i
  | .vtext s => s

/-- Python string slice `s[:n]` (first `n` characters). -/
def pyTake (n : Nat) (s : String) : String := ⟨s.data.take n⟩

/-- One table of the SQLite database: its name, column names (in declaration
order, as returned by `cursor.description`), and rows as positional value
lists aligned with the columns. -/
structure Table where
  name : String
  columns : List String
  rows : List (List Value)
deriving DecidableEq, Repr

/-- The database: the list of its tables. -/
abbrev DB := List Table

/-- Name lookup of a table, as SQLite resolves a table name in a query. -/
def lookupTable (db : DB) (name : String) : Option Table :=
  db.find? (fun t => t.name == name)

/-- The per-column formatting policy of the row dump loop (lines 66–78 of
`view_db.py`).  Priority order from the source:
1. `col in ['trace', 'data'] and value` → print only the length
   (`len(value)` raises `TypeError` on a truthy `int`, modelled as `.error`);
2. `isinstance(value, str) and len(value) > 100` → first 100 chars + `"..."`;
3. otherwise `str(value)` as-is. -/
def formatValue (col : String) (v : Value) : Except String String :=
  if (col == "trace" || col == "data") && truthy v then
    match v with
    | .vtext s => .ok ("  " ++ col ++ ": [JSON data, " ++ toString s.length ++ " chars]")
    | _ => .error "TypeError: object of type int has no len()"
  else
    match v with
    | .vtext s =>
      if s.length > 100 then .ok ("  " ++ col ++ ": " ++ pyTake 100 s ++ "...")
      else .ok ("  " ++ col ++ ": " ++ s)
    | _ => .ok ("  " ++ col ++ ": " ++ pyStr v)

/-- Generic insertion of `x` into `l` before the first element `y` with
`le x y` — the insert step of an insertion sort. -/
def insertBy (le : α → α → Bool) (x : α) : List α → List α
  | [] => [x]
  | y :: ys => if le x y then x :: y :: ys else y :: insertBy le x ys

/-- Insertion sort with respect to the boolean relation `le`. -/
def sortBy (le : α → α → Bool) : List α → List α
  | [] => []
  | x :: xs => insertBy le x (sortBy le xs)

/-- Byte-lexicographic (= codepoint-lexicographic) order on strings, the
collation SQLite's `ORDER BY name` uses on the catalog. -/
def leChars : List Char → List Char → Bool
  | [], _ => true
  | _ :: _, [] => false
  | a :: as, b :: bs => if a < b then true else if b < a then false else leChars as bs

/-- `ORDER BY` comparison on table names. -/
def strLe (a b : String) : Bool := leChars a.data b.data

/-- Distinct values of a list, first occurrence first (the grouping keys of a
`GROUP BY`). -/
def firstDedupAux (seen : List Value) : List Value → List Value
  | [] => []
  | v :: vs => if v ∈ seen then firstDedupAux seen vs else v :: firstDedupAux (v :: seen) vs

/-- Distinct grouping keys of a column's values. -/
def firstDedup (vs : List Value) : List Value := firstDedupAux [] vs

/-- Result of `SELECT col, COUNT(*) FROM t GROUP BY col ORDER BY count DESC`
over the column values `vs`: one `(key, count)` pair per distinct value,
sorted by count descending (tie order left to the sort's stability, matching
the spec's "tie-break unspecified"). -/
def groupByCountDesc (vs : List Value) : List (Value × Nat) :=
  sortBy (fun p q => decide (q.2 ≤ p.2)) ((firstDedup vs).map (fun k => (k, vs.count k)))

/-- Observable state of a run: the arguments of the `print` calls made so
far, and the SQL strings passed to `cursor.execute` so far. -/
structure St where
  lines : List String
  queries : List String
deriving DecidableEq, Repr

/-- Record one `print(...)` call. -/
def St.emitL (st : St) (l : String) : St := { st with lines := st.lines ++ [l] }

/-- Record one `cursor.execute(...)` call. -/
def St.emitQ (st : St) (q : String) : St := { st with queries := st.queries ++ [q] }

/-- The `"="*80` banner string. -/
def eq80 : String := ⟨List.replicate 80 '='⟩

/-- `print_table_header(table_name, count)` (lines 24–28). -/
def print_table_header (table_name : String) (count : Nat) (st : St) : St :=
  ((st.emitL ("\n" ++ eq80)).emitL
    ("📋 " ++ table_name.toUpper ++ " (" ++ toString count ++ " records)")).emitL eq80

/-- The inner `for col in columns` loop of one record (lines 66–78); an
exception from `formatValue` aborts the loop. -/
def dumpCols : List (String × Value) → St → St × Option String
  | [], st => (st, none)
  | (c, v) :: rest, st =>
    match formatValue c v with
    | .ok line => dumpCols rest (st.emitL line)
    | .error e => (st, some e)

/-- The `for i, row in enumerate(rows, 1)` loop (lines 64–78). -/
def dumpRecords (columns : List String) : List (List Value) → Nat → St → St × Option String
  | [], _, st => (st, none)
  | r :: rs, i, st =>
    match dumpCols (columns.zip r) (st.emitL ("\n--- Record " ++ toString i ++ " ---")) with
    | (st', none) => dumpRecords columns rs (i + 1) st'
    | (st', some e) => (st', some e)

/-- One iteration of the table-dump loop (lines 51–80): `COUNT(*)`, the
banner, `SELECT *`, then the records or the `(No records)` marker. -/
def dumpTable (db : DB) (name : String) (st : St) : St × Option String :=
  let st := st.emitQ ("SELECT COUNT(*) FROM " ++ name)
  match lookupTable db name with
  | none => (st, some ("no such table: " ++ name))
  | some t =>
    let st := print_table_header name t.rows.length st
    let st := st.emitQ ("SELECT * FROM " ++ name)
    match t.rows with
    | [] => (st.emitL "  (No records)", none)
    | _ => dumpRecords t.columns t.rows 1 st

/-- The `for table in tables` loop over the catalog's table names. -/
def dumpAllTables (db : DB) : List String → St → St × Option String
  | [], st => (st, none)
  | n :: ns, st =>
    match dumpTable db n st with
    | (st', none) => dumpAllTables db ns st'
    | (st', some e) => (st', some e)

/-- A `SELECT COUNT(*) FROM name` of the summary section; a missing table is
a SQLite `OperationalError`. -/
def countQuery (db : DB) (name : String) (st : St) : St × Except String Nat :=
  let st := st.emitQ ("SELECT COUNT(*) FROM " ++ name)
  match lookupTable db name with
  | some t => (st, .ok t.rows.length)
  | none => (st, .error ("no such table: " ++ name))

/-- A `SELECT col, COUNT(*) as count FROM tname GROUP BY col ORDER BY count
DESC` of the summary section. -/
def groupQuery (db : DB) (tname col : String) (st : St) :
    St × Except String (List (Value × Nat)) :=
  let st := st.emitQ ("SELECT " ++ col ++ ", COUNT(*) as count FROM " ++ tname ++
    " GROUP BY " ++ col ++ " ORDER BY count DESC")
  match lookupTable db tname with
  | none => (st, .error ("no such table: " ++ tname))
  | some t =>
    match t.columns.findIdx? (fun c => c == col) with
    | none => (st, .error ("no such column: " ++ col))
    | some i => (st, .ok (groupByCountDesc (t.rows.map (fun r => r.getD i Value.vnull))))

/-- The `print(f"    {row[0]}: {row[1]}")` loop over a grouped-count result. -/
def emitGroupLines (g : List (Value × Nat)) (st : St) : St :=
  g.foldl (fun st p => st.emitL ("    " ++ pyStr p.1 ++ ": " ++ toString p.2)) st

/-- The ClinicalTrial grouped-count block (lines 105–114). -/
def ctGroups (db : DB) (st : St) : St × Option String :=
  let st := st.emitL "\n  Clinical Trials by Phase:"
  match groupQuery db "ClinicalTrial" "phase" st with
  | (st', .error e) => (st', some e)
  | (st', .ok g) =>
    let st' := (emitGroupLines g st').emitL "\n  Clinical Trials by Country:"
    match groupQuery db "ClinicalTrial" "country" st' with
    | (st'', .error e) => (st'', some e)
    | (st'', .ok g') => (emitGroupLines g' st'', none)

/-- The Patent grouped-count block (lines 116–125). -/
def patentGroups (db : DB) (st : St) : St × Option String :=
  let st := st.emitL "\n  Patents by Status:"
  match groupQuery db "Patent" "status" st with
  | (st', .error e) => (st', some e)
  | (st', .ok g) =>
    let st' := (emitGroupLines g st').emitL "\n  Patents by FTO Flag:"
    match groupQuery db "Patent" "ftoFlag" st' with
    | (st'', .error e) => (st'', some e)
    | (st'', .ok g') => (emitGroupLines g' st'', none)

/-- The Job grouped-count block (lines 127–131). -/
def jobGroups (db : DB) (st : St) : St × Option String :=
  let st := st.emitL "\n  Jobs by Status:"
  match groupQuery db "Job" "status" st with
  | (st', .error e) => (st', some e)
  | (st', .ok g) => (emitGroupLines g st', none)

/-- The three conditional grouped-count blocks plus the closing banner
(lines 105–133). -/
def summaryGroups (db : DB) (cc pc jc : Nat) (st : St) : St × Option String :=
  match (if cc > 0 then ctGroups db st else (st, none)) with
  | (st, some e) => (st, some e)
  | (st, none) =>
    match (if pc > 0 then patentGroups db st else (st, none)) with
    | (st, some e) => (st, some e)
    | (st, none) =>
      match (if jc > 0 then jobGroups db st else (st, none)) with
      | (st, some e) => (st, some e)
      | (st, none) => (st.emitL ("\n" ++ eq80), none)

/-- The summary section (lines 83–133): the SUMMARY banner, the four fixed
`COUNT(*)` queries (all four execute before any count is printed), the four
count lines, then the conditional grouped-count blocks. -/
def summarySection (db : DB) (st : St) : St × Option String :=
  let st := ((st.emitL ("\n" ++ eq80)).emitL "📈 SUMMARY").emitL eq80
  match countQuery db "ClinicalTrial" st with
  | (st, .error e) => (st, some e)
  | (st, .ok cc) =>
    match countQuery db "Patent" st with
    | (st, .error e) => (st, some e)
    | (st, .ok pc) =>
      match countQuery db "Job" st with
      | (st, .error e) => (st, some e)
      | (st, .ok jc) =>
        match countQuery db "Report" st with
        | (st, .error e) => (st, some e)
        | (st, .ok rc) =>
          let st := (((st.emitL ("  Clinical Trials: " ++ toString cc)).emitL
            ("  Patents: " ++ toString pc)).emitL
            ("  Jobs: " ++ toString jc)).emitL
            ("  Reports: " ++ toString rc)
          summaryGroups db cc pc jc st

/-- Outcome of one `view_database(db_path)` call: all `print` arguments in
order, all executed SQL strings in order, whether `sqlite3.connect` ran,
whether `conn.close()` ran, and the exception (if any) propagated to the
caller's `except` block. -/
structure RunResult where
  lines : List String
  queries : List String
  connOpened : Bool
  connClosed : Bool
  error : Option String
deriving DecidableEq, Repr

/-- `view_database(db_path)` (lines 31–136).  `fileExists` is the value of
`Path(db_path).exists()`.  `conn.close()` (line 135) is only reached when no
exception was raised — the function has no try/finally — so `connClosed` is
false on every error path. -/
def view_database (fileExists : Bool) (db : DB) (db_path : String) : RunResult :=
  if fileExists then
    let st : St := { lines := ["🔍 Connecting to database: " ++ db_path ++ "\n"],
                     queries := [] }
    let st := st.emitQ "SELECT name FROM sqlite_master WHERE type='table' ORDER BY name"
    let tables := sortBy strLe (db.map (fun t => t.name))
    let st := st.emitL ("📊 Found " ++ toString tables.length ++ " tables: " ++
      String.intercalate ", " tables ++ "\n")
    match dumpAllTables db tables st with
    | (st, some e) =>
      { lines := st.lines, queries := st.queries,
        connOpened := true, connClosed := false, error := some e }
    | (st, none) =>
      match summarySection db st with
      | (st, some e) =>
        { lines := st.lines, queries := st.queries,
          connOpened := true, connClosed := false, error := some e }
      | (st, none) =>
        { lines := (st.emitL "\n✅ Database view complete!\n").lines,
          queries := st.queries,
          connOpened := true, connClosed := true, error := none }
  else
    { lines := ["❌ Database not found at: " ++ db_path], queries := [],
      connOpened := false, connClosed := false, error := none }

/-- `q` is a `SELECT` statement: its first six characters read `SELECT`. -/
def startsSELECT (q : String) : Bool := q.data.take 6 == "SELECT".data

/-- Every query of the list is a `SELECT` statement. -/
def AllSel (qs : List String) : Prop := ∀ q ∈ qs, startsSELECT q = true

/-- Concrete database of the spec's phase-summary example: `ClinicalTrial`
phases with multiplicities Phase 1 ↦ 2, Phase 2 ↦ 1; the other three
expected tables present and empty. -/
def exampleDb : DB :=
  [ { name := "ClinicalTrial", columns := ["id", "phase", "country"],
      rows := [ [.vint 1, .vtext "Phase 1", .vtext "US"],
                [.vint 2, .vtext "Phase 2", .vtext "US"],
                [.vint 3, .vtext "Phase 1", .vtext "IN"] ] },
    { name := "Patent", columns := ["id", "status", "ftoFlag"], rows := [] },
    { name := "Job", columns := ["id", "status"], rows := [] },
    { name := "Report", columns := ["id"], rows := [] } ]

/-- An empty `ClinicalTrial` table. -/
def ctEmpty : Table := { name := "ClinicalTrial", columns := ["id", "phase", "country"], rows := [] }

/-- An empty `Patent` table. -/
def patentEmpty : Table := { name := "Patent", columns := ["id", "status", "ftoFlag"], rows := [] }

/-- An empty `Job` table. -/
def jobEmpty : Table := { name := "Job", columns := ["id", "status"], rows := [] }

/-- A database holding `ClinicalTrial`, `Patent` and `Job` but no `Report`
table. -/
def noReportDb : DB := [ctEmpty, patentEmpty, jobEmpty]

/-- A 101-character string (`"a" * 101`). -/
def aas : String := ⟨List.replicate 101 'a'⟩

/-!
JSON model.

Executable model of the parts of Python's `json` module used by
`format_json` (line 13–21 of `view_db.py`): `json.loads` and
`json.dumps(obj, indent=2)`.

Modelled scope: the JSON grammar with integer numerals.  Floating-point
numerals (`1.5`, `1e3`) are outside the model (floating point is not
shallowly embeddable); `json.dumps`'s `ensure_ascii` re-encoding of
non-ASCII characters is not modelled (the model prints non-ASCII characters
raw, as `ensure_ascii=False` would); `\uXXXX` escapes decode to a single
code point (no surrogate-pair recombination).  None of these affect the
structure of the claims: parse-success vs parse-failure dispatch, and
pretty-printing preserving the parsed structure.
-/

/-- A parsed JSON document (`json.loads` result): `None`, `bool`, `int`,
`str`, `list`, `dict` (as an association list in insertion order). -/
inductive JValue where
  | jnull
  | jbool (b : Bool)
  | jnum (n : Int)
  | jstr (s : String)
  | jarr (elems : List JValue)
  | jobj (members : List (String × JValue))
deriving Repr

/-- The decimal digit character for `n < 10`. -/
def digitChar (n : Nat) : Char := Char.ofNat (48 + n)

/-- Decimal digits of a natural number, most significant first. -/
def natToDigits (n : Nat) : List Char :=
  if n < 10 then [digitChar n]
  else natToDigits (n / 10) ++ [digitChar (n % 10)]
termination_by n
decreasing_by exact Nat.div_lt_self (by omega) (by omega)

/-- `10 ^ (number of decimal digits of n)`, following the recursion of
`natToDigits`. -/
def tenPow (n : Nat) : Nat :=
  if n < 10 then 10 else 10 * tenPow (n / 10)
termination_by n
decreasing_by exact Nat.div_lt_self (by omega) (by omega)

/-- Decimal rendering of an integer (Python `repr` of an `int`). -/
def intChars (i : Int) : List Char :=
  if i < 0 then '-' :: natToDigits i.natAbs else natToDigits i.toNat

/-- The lowercase hex digit character for `n < 16`, as Python's `json`
emits in `\uXXXX` escapes. -/
def hexDigitChar (n : Nat) : Char :=
  Char.ofNat (if n < 10 then 48 + n else 87 + n)

/-- JSON string escaping of one character, as `json.dumps` renders it:
`"`, `\`, and the control characters are escaped, everything else passes
through. -/
def escChar (c : Char) : List Char :=
  if c = '"' then ['\\', '"']
  else if c = '\\' then ['\\', '\\']
  else if c = '\n' then ['\\', 'n']
  else if c = '\t' then ['\\', 't']
  else if c = '\r' then ['\\', 'r']
  else if c = '\x08' then ['\\', 'b']
  else if c = '\x0c' then ['\\', 'f']
  else if c.toNat < 32 then
    ['\\', 'u', '0', '0', hexDigitChar (c.toNat / 16), hexDigitChar (c.toNat % 16)]
  else [c]

/-- JSON string escaping of a character sequence. -/
def escString : List Char → List Char
  | [] => []
  | c :: cs => escChar c ++ escString cs

/-- A JSON string literal: quote, escaped content, quote. -/
def quoteChars (s : String) : List Char := '"' :: (escString s.data ++ ['"'])

/-- `n` spaces (the indentation of `json.dumps(obj, indent=2)` at depth
`n / 2`). -/
def spacesC (n : Nat) : List Char := List.replicate n ' '

mutual
/-- `json.dumps(obj, indent=2)` rendering of a value at indentation depth
`ind`, as a character list. -/
def dumpChars (ind : Nat) : JValue → List Char
  | .jnull => ['n', 'u', 'l', 'l']
  | .jbool true => ['t', 'r', 'u', 'e']
  | .jbool false => ['f', 'a', 'l', 's', 'e']
  | .jnum n => intChars n
  | .jstr s => quoteChars s
  | .jarr [] => ['[', ']']
  | .jarr (x :: xs) =>
    '[' :: '\n' :: (dumpItems ind x xs ++ '\n' :: (spacesC (2 * ind) ++ [']']))
  | .jobj [] => ['\x7b', '\x7d']
  | .jobj ((k, v) :: kvs) =>
    '\x7b' :: '\n' :: (dumpMembers ind k v kvs ++ '\n' :: (spacesC (2 * ind) ++ ['\x7d']))
termination_by v => sizeOf v

/-- The comma-newline separated items of a non-empty array, each on its own
indented line. -/
def dumpItems (ind : Nat) (x : JValue) : List JValue → List Char
  | [] => spacesC (2 * (ind + 1)) ++ dumpChars (ind + 1) x
  | y :: ys =>
    spacesC (2 * (ind + 1)) ++ (dumpChars (ind + 1) x ++ ',' :: '\n' :: dumpItems ind y ys)
termination_by xs => 1 + sizeOf x + sizeOf xs

/-- The comma-newline separated `"key": value` members of a non-empty
object. -/
def dumpMembers (ind : Nat) (k : String) (v : JValue) :
    List (String × JValue) → List Char
  | [] => spacesC (2 * (ind + 1)) ++ (quoteChars k ++ ':' :: ' ' :: dumpChars (ind + 1) v)
  | (k2, v2) :: kvs =>
    spacesC (2 * (ind + 1)) ++ (quoteChars k ++ ':' :: ' ' :: (dumpChars (ind + 1) v ++
      ',' :: '\n' :: dumpMembers ind k2 v2 kvs))
termination_by kvs => 1 + sizeOf v + sizeOf kvs
decreasing_by all_goals (simp_wf; omega)
end

/-- `json.dumps(obj, indent=2)`. -/
def dumps (v : JValue) : String := ⟨dumpChars 0 v⟩

/-- JSON whitespace (`' '`, `'\n'`, `'\t'`, `'\r'`), by code point. -/
def isWsC (c : Char) : Bool :=
  decide (c.toNat = 32) || decide (c.toNat = 10) ||
  decide (c.toNat = 9) || decide (c.toNat = 13)

/-- Skip JSON whitespace. -/
def skipWs (cs : List Char) : List Char := cs.dropWhile isWsC

/-- ASCII decimal digit, by code point. -/
def isDigitC (c : Char) : Bool := decide (48 ≤ c.toNat) && decide (c.toNat ≤ 57)

/-- Numeric value of a decimal digit character. -/
def digitVal (c : Char) : Nat := c.toNat - 48

/-- Value of a decimal digit string, most significant first. -/
def digitsVal (ds : List Char) : Nat := ds.foldl (fun a c => a * 10 + digitVal c) 0

/-- Parse a maximal non-empty run of decimal digits. -/
def parseNat (cs : List Char) : Option (Nat × List Char) :=
  match cs.takeWhile isDigitC with
  | [] => none
  | ds => some (digitsVal ds, cs.dropWhile isDigitC)

/-- Numeric value of a hex digit character, if it is one. -/
def hexVal? (c : Char) : Option Nat :=
  if 48 ≤ c.toNat ∧ c.toNat ≤ 57 then some (c.toNat - 48)
  else if 97 ≤ c.toNat ∧ c.toNat ≤ 102 then some (c.toNat - 87)
  else if 65 ≤ c.toNat ∧ c.toNat ≤ 70 then some (c.toNat - 55)
  else none

/-- Decode a single-character JSON escape (`\e`), the exact set `json.loads`
accepts. -/
def escDecode? (e : Char) : Option Char :=
  if e = '"' then some '"'
  else if e = '\\' then some '\\'
  else if e = '/' then some '/'
  else if e = 'n' then some '\n'
  else if e = 't' then some '\t'
  else if e = 'r' then some '\r'
  else if e = 'b' then some '\x08'
  else if e = 'f' then some '\x0c'
  else none

/-- Parse the body of a JSON string literal after the opening quote: content
characters up to the closing quote, decoding escapes, rejecting raw control
characters (`json.loads` strict mode). -/
def parseStrBody : List Char → Option (List Char × List Char)
  | [] => none
  | c :: rest =>
    if c = '"' then some ([], rest)
    else if c = '\\' then
      match rest with
      | [] => none
      | e :: rest2 =>
        if e = 'u' then
          match rest2 with
          | a :: b :: c2 :: d :: r =>
            match hexVal? a, hexVal? b, hexVal? c2, hexVal? d with
            | some ha, some hb, some hc, some hd =>
              match parseStrBody r with
              | some (p, r') =>
                some (Char.ofNat (((ha * 16 + hb) * 16 + hc) * 16 + hd) :: p, r')
              | none => none
            | _, _, _, _ => none
          | _ => none
        else
          match escDecode? e with
          | some ec =>
            match parseStrBody rest2 with
            | some (p, r') => some (ec :: p, r')
            | none => none
          | none => none
    else if c.toNat < 32 then none
    else
      match parseStrBody rest with
      | some (p, r') => some (c :: p, r')
      | none => none

mutual
/-- Recursive-descent JSON value parser (`json.loads` scanner), with fuel
bounding the recursion depth.  Dispatches on the first character exactly as
the Python scanner does; leading whitespace must already be skipped. -/
def parseVal : Nat → List Char → Option (JValue × List Char)
  | 0, _ => none
  | f + 1, cs =>
    match cs with
    | [] => none
    | c :: rest =>
      if c = 'n' then
        match rest with
        | 'u' :: 'l' :: 'l' :: r => some (.jnull, r)
        | _ => none
      else if c = 't' then
        match rest with
        | 'r' :: 'u' :: 'e' :: r => some (.jbool true, r)
        | _ => none
      else if c = 'f' then
        match rest with
        | 'a' :: 'l' :: 's' :: 'e' :: r => some (.jbool false, r)
        | _ => none
      else if c = '"' then
        match parseStrBody rest with
        | some (p, r) => some (.jstr ⟨p⟩, r)
        | none => none
      else if c = '-' then
        match parseNat rest with
        | some (n, r) => some (.jnum (-(n : Int)), r)
        | none => none
      else if c = '[' then
        match skipWs rest with
        | [] => none
        | d :: r' =>
          if d = ']' then some (.jarr [], r')
          else
            match parseElems f (d :: r') with
            | some (vs, r2) => some (.jarr vs, r2)
            | none => none
      else if c = '\x7b' then
        match skipWs rest with
        | [] => none
        | d :: r' =>
          if d = '\x7d' then some (.jobj [], r')
          else
            match parseMembers f (d :: r') with
            | some (kvs, r2) => some (.jobj kvs, r2)
            | none => none
      else if isDigitC c then
        match parseNat (c :: rest) with
        | some (n, r) => some (.jnum (n : Int), r)
        | none => none
      else none

/-- Parse the comma-separated elements of a non-empty array, up to and
including the closing `]`. -/
def parseElems : Nat → List Char → Option (List JValue × List Char)
  | 0, _ => none
  | f + 1, cs =>
    match parseVal f cs with
    | none => none
    | some (v, r1) =>
      match skipWs r1 with
      | ',' :: r2 =>
        match parseElems f (skipWs r2) with
        | some (vs, r3) => some (v :: vs, r3)
        | none => none
      | ']' :: r2 => some ([v], r2)
      | _ => none

/-- Parse the comma-separated `"key": value` members of a non-empty object,
up to and including the closing `}`. -/
def parseMembers : Nat → List Char → Option (List (String × JValue) × List Char)
  | 0, _ => none
  | f + 1, cs =>
    match cs with
    | '"' :: rest =>
      match parseStrBody rest with
      | none => none
      | some (k, r1) =>
        match skipWs r1 with
        | ':' :: r2 =>
          match parseVal f (skipWs r2) with
          | none => none
          | some (v, r3) =>
            match skipWs r3 with
            | ',' :: r4 =>
              match parseMembers f (skipWs r4) with
              | some (kvs, r5) => some ((⟨k⟩, v) :: kvs, r5)
              | none => none
            | '\x7d' :: r4 => some ([(⟨k⟩, v)], r4)
            | _ => none
        | _ => none
    | _ => none
end

/-- `json.loads`: parse a whole document, allowing surrounding whitespace,
requiring the input to be fully consumed. -/
def parseJson (s : String) : Option JValue :=
  match parseVal (s.length + 1) (skipWs s.data) with
  | some (v, rest) => if (skipWs rest).isEmpty then some v else none
  | none => none

/-- `format_json(json_str)` (lines 13–21 of `view_db.py`): on a truthy
(non-empty) string that parses, return the `indent=2` pretty-printing;
otherwise — empty string, or any parse error caught by the bare `except` —
return the input unchanged. -/
def format_json (json_str : String) : String :=
  if json_str.isEmpty then json_str
  else
    match parseJson json_str with
    | some obj => dumps obj
    | none => json_str

mutual
/-- Fuel needed by `parseVal` to parse a dumped value. -/
def sizeJ : JValue → Nat
  | .jnull => 1
  | .jbool _ => 1
  | .jnum _ => 1
  | .jstr _ => 1
  | .jarr xs => 1 + sizeElems xs
  | .jobj kvs => 1 + sizeMembers kvs

/-- Fuel needed by `parseElems` for a list of array elements. -/
def sizeElems : List JValue → Nat
  | [] => 0
  | x :: xs => 1 + sizeJ x + sizeElems xs

/-- Fuel needed by `parseMembers` for a list of object members. -/
def sizeMembers : List (String × JValue) → Nat
  | [] => 0
  | (_, v) :: kvs => 1 + sizeJ v + sizeMembers kvs
end

/-- The rest of the input does not start with a digit (so a preceding
numeral cannot greedily consume into it). -/
def NotDigitStart (cs : List Char) : Prop :=
  ∀ c, cs.head? = some c → isDigitC c = false

/-- Round-trip property of one value: parsing its dumped form at any
indentation, with enough fuel, yields the value back and consumes exactly
its characters. -/
def ParsesBack (v : JValue) : Prop :=
  ∀ (ind f : Nat) (rest : List Char), sizeJ v ≤ f → NotDigitStart rest →
    parseVal f (dumpChars ind v ++ rest) = some (v, rest)

/-- The characters following the first element of a dumped non-empty array:
either the separator and the remaining items, or the closing line. -/
def itemsTail (ind : Nat) (xs : List JValue) (rest : List Char) : List Char :=
  match xs with
  | [] => '\n' :: (spacesC (2 * ind) ++ ']' :: rest)
  | y :: ys => ',' :: '\n' :: (dumpItems ind y ys ++ '\n' :: (spacesC (2 * ind) ++ ']' :: rest))

/-- The characters following the first member of a dumped non-empty
object. -/
def membersTail (ind : Nat) (kvs : List (String × JValue)) (rest : List Char) : List Char :=
  match kvs with
  | [] => '\n' :: (spacesC (2 * ind) ++ '\x7d' :: rest)
  | (k2, v2) :: kvs' =>
    ',' :: '\n' :: (dumpMembers ind k2 v2 kvs' ++ '\n' :: (spacesC (2 * ind) ++ '\x7d' :: rest))

/-! ### Theorems -/

/-- Digit characters are digits. -/
theorem digitChar_isDigit : ∀ n < 10, isDigitC (digitChar n) = true := by decide

/-- `digitVal` inverts `digitChar` below 10. -/
theorem digitVal_digitChar : ∀ n < 10, digitVal (digitChar n) = n := by decide

/-- The decimal rendering of a natural number is non-empty and starts with a
digit. -/
theorem natToDigits_cons (n : Nat) :
    ∃ d ds, natToDigits n = d :: ds ∧ isDigitC d = true := by
  induction n using Nat.strong_induction_on with
  | _ n ih =>
    rw [natToDigits]
    by_cases h : n < 10
    · rw [if_pos h]
      exact ⟨digitChar n, [], rfl, digitChar_isDigit n h⟩
    · rw [if_neg h]
      obtain ⟨d, ds, hd, hdig⟩ := ih (n / 10) (Nat.div_lt_self (by omega) (by omega))
      exact ⟨d, ds ++ [digitChar (n % 10)], by rw [hd]; rfl, hdig⟩

/-- Every character of a decimal rendering is a digit. -/
theorem natToDigits_all_digits (n : Nat) : ∀ c ∈ natToDigits n, isDigitC c = true := by
  induction n using Nat.strong_induction_on with
  | _ n ih =>
    rw [natToDigits]
    by_cases h : n < 10
    · rw [if_pos h]
      intro c hc
      rw [List.mem_singleton.mp hc]
      exact digitChar_isDigit n h
    · rw [if_neg h]
      intro c hc
      rcases List.mem_append.mp hc with h1 | h2
      · exact ih (n / 10) (Nat.div_lt_self (by omega) (by omega)) c h1
      · rw [List.mem_singleton.mp h2]
        exact digitChar_isDigit (n % 10) (by omega)

/-- Folding the digit-accumulation step over a decimal rendering from any
accumulator. -/
theorem digitsVal_from (n : Nat) :
    ∀ a, (natToDigits n).foldl (fun a c => a * 10 + digitVal c) a = a * tenPow n + n := by
  induction n using Nat.strong_induction_on with
  | _ n ih =>
    intro a
    rw [natToDigits, tenPow]
    by_cases h : n < 10
    · rw [if_pos h, if_pos h]
      simp [digitVal_digitChar n h]
    · rw [if_neg h, if_neg h, List.foldl_append,
        ih (n / 10) (Nat.div_lt_self (by omega) (by omega)) a]
      simp only [List.foldl_cons, List.foldl_nil]
      rw [digitVal_digitChar (n % 10) (by omega)]
      have hmod : 10 * (n / 10) + n % 10 = n := Nat.div_add_mod n 10
      have key : ∀ a T q r : Nat, (a * T + q) * 10 + r = a * (10 * T) + (10 * q + r) := by
        intro a T q r
        ring
      rw [key, hmod]

/-- The digit parser inverts the decimal rendering. -/
theorem digitsVal_natToDigits (n : Nat) : digitsVal (natToDigits n) = n := by
  have := digitsVal_from n 0
  simpa [digitsVal] using this

/-- `takeWhile`/`dropWhile` split an append whose left part all satisfies the
predicate and whose right part does not start with it. -/
theorem takeWhile_append_all {α : Type} (p : α → Bool) (l1 l2 : List α)
    (h1 : ∀ c ∈ l1, p c = true) (h2 : ∀ c, l2.head? = some c → p c = false) :
    (l1 ++ l2).takeWhile p = l1 ∧ (l1 ++ l2).dropWhile p = l2 := by
  induction l1 with
  | nil =>
    simp only [List.nil_append]
    cases l2 with
    | nil => exact ⟨rfl, rfl⟩
    | cons c cs =>
      have := h2 c rfl
      simp [List.takeWhile_cons, List.dropWhile_cons, this]
  | cons a l1 ih =>
    have ha : p a = true := h1 a (List.mem_cons_self a l1)
    have hih := ih (fun c hc => h1 c (List.mem_cons_of_mem a hc))
    simp [List.takeWhile_cons, List.dropWhile_cons, ha, hih.1, hih.2]

/-- The numeral parser inverts the decimal rendering when the rest of the
input does not start with a digit. -/
theorem parseNat_natToDigits (m : Nat) (rest : List Char) (h : NotDigitStart rest) :
    parseNat (natToDigits m ++ rest) = some (m, rest) := by
  obtain ⟨htake, hdrop⟩ := takeWhile_append_all isDigitC (natToDigits m) rest
    (natToDigits_all_digits m) h
  obtain ⟨d, ds, hd, _⟩ := natToDigits_cons m
  unfold parseNat
  rw [htake, hdrop, hd]
  show some (digitsVal (d :: ds), rest) = some (m, rest)
  rw [← hd, digitsVal_natToDigits]

/-- Skipping whitespace passes over an all-whitespace prefix. -/
theorem skipWs_ws_append (ws cs : List Char) (h : ∀ c ∈ ws, isWsC c = true) :
    skipWs (ws ++ cs) = skipWs cs := by
  induction ws with
  | nil => rfl
  | cons a l ih =>
    have ha := h a (List.mem_cons_self a l)
    simp only [List.cons_append, skipWs, List.dropWhile_cons, ha, if_pos]
    exact ih (fun c hc => h c (List.mem_cons_of_mem a hc))

/-- Skipping whitespace stops at a non-whitespace head. -/
theorem skipWs_not_ws (c : Char) (cs : List Char) (h : isWsC c = false) :
    skipWs (c :: cs) = c :: cs := by
  simp [skipWs, List.dropWhile_cons, h]

/-- Indentation is whitespace. -/
theorem spacesC_all_ws (n : Nat) : ∀ c ∈ spacesC n, isWsC c = true := by
  intro c hc
  rw [List.eq_of_mem_replicate hc]
  decide

/-- Code-point bounds of a digit character. -/
theorem isDigitC_toNat {c : Char} (h : isDigitC c = true) :
    48 ≤ c.toNat ∧ c.toNat ≤ 57 := by
  simpa [isDigitC, Bool.and_eq_true, decide_eq_true_eq] using h

/-- A digit head is not whitespace, no closing bracket, and no scanner
dispatch character. -/
theorem digit_head_props {c : Char} (h : isDigitC c = true) :
    isWsC c = false ∧ c ≠ 'n' ∧ c ≠ 't' ∧ c ≠ 'f' ∧ c ≠ '"' ∧ c ≠ '-' ∧ c ≠ '[' ∧
    c ≠ '\x7b' ∧ c ≠ ']' ∧ c ≠ '\x7d' := by
  obtain ⟨h1, h2⟩ := isDigitC_toNat h
  refine ⟨?_, ?_, ?_, ?_, ?_, ?_, ?_, ?_, ?_, ?_⟩
  · simp only [isWsC, Bool.or_eq_false_iff, decide_eq_false_iff_not]
    omega
  all_goals (intro heq; rw [heq] at h; exact absurd h (by decide))

/-- The dumped form of any value starts with a non-whitespace character that
is neither `]` nor `}`. -/
theorem dumpChars_head (ind : Nat) (v : JValue) :
    ∃ c cs', dumpChars ind v = c :: cs' ∧ isWsC c = false ∧ c ≠ ']' ∧ c ≠ '\x7d' := by
  cases v with
  | jnull => exact ⟨'n', ['u', 'l', 'l'], by simp [dumpChars], by decide, by decide, by decide⟩
  | jbool b =>
    cases b with
    | true => exact ⟨'t', ['r', 'u', 'e'], by simp [dumpChars], by decide, by decide, by decide⟩
    | false =>
      exact ⟨'f', ['a', 'l', 's', 'e'], by simp [dumpChars], by decide, by decide, by decide⟩
  | jnum n =>
    by_cases hn : n < 0
    · exact ⟨'-', natToDigits n.natAbs, by simp [dumpChars, intChars, hn],
        by decide, by decide, by decide⟩
    · obtain ⟨d, ds, hd, hdig⟩ := natToDigits_cons n.toNat
      obtain ⟨hws, _, _, _, _, _, _, _, hr, hb⟩ := digit_head_props hdig
      exact ⟨d, ds, by simp [dumpChars, intChars, hn, hd], hws, hr, hb⟩
  | jstr s =>
    exact ⟨'"', escString s.data ++ ['"'], by simp [dumpChars, quoteChars],
      by decide, by decide, by decide⟩
  | jarr xs =>
    cases xs with
    | nil => exact ⟨'[', [']'], by simp [dumpChars], by decide, by decide, by decide⟩
    | cons x xs =>
      exact ⟨'[', '\n' :: (dumpItems ind x xs ++ '\n' :: (spacesC (2 * ind) ++ [']'])),
        by simp [dumpChars], by decide, by decide, by decide⟩
  | jobj kvs =>
    cases kvs with
    | nil => exact ⟨'\x7b', ['\x7d'], by simp [dumpChars], by decide, by decide, by decide⟩
    | cons kv kvs =>
      obtain ⟨k, v⟩ := kv
      exact ⟨'\x7b', '\n' :: (dumpMembers ind k v kvs ++ '\n' :: (spacesC (2 * ind) ++ ['\x7d'])),
        by simp [dumpChars], by decide, by decide, by decide⟩

/-- Skipping whitespace does not touch a dumped value. -/
theorem skipWs_dump (ind : Nat) (v : JValue) (cs : List Char) :
    skipWs (dumpChars ind v ++ cs) = dumpChars ind v ++ cs := by
  obtain ⟨c, cs', hc, hws, _, _⟩ := dumpChars_head ind v
  rw [hc, List.cons_append, skipWs_not_ws _ _ hws]

/-- `hexVal?` inverts `hexDigitChar` below 16. -/
theorem hex_roundtrip : ∀ m < 16, hexVal? (hexDigitChar m) = some m := by decide

/-- The string-body parser inverts JSON string escaping: parsing the escaped
content followed by the closing quote returns the content and the rest. -/
theorem parseStrBody_escString (cs : List Char) :
    ∀ rest, parseStrBody (escString cs ++ '"' :: rest) = some (cs, rest) := by
  induction cs with
  | nil =>
    intro rest
    show parseStrBody (escString [] ++ '"' :: rest) = some ([], rest)
    rw [show escString [] ++ '"' :: rest = '"' :: rest from rfl, parseStrBody.eq_def]
    simp
  | cons c cs ih =>
    intro rest
    show parseStrBody ((escChar c ++ escString cs) ++ '"' :: rest) = some (c :: cs, rest)
    rw [List.append_assoc]
    by_cases h1 : c = '"'
    · subst h1
      rw [show escChar '"' ++ (escString cs ++ '"' :: rest)
          = '\\' :: '"' :: (escString cs ++ '"' :: rest) from rfl, parseStrBody.eq_def]
      simp [escDecode?, ih rest]
    by_cases h2 : c = '\\'
    · subst h2
      rw [show escChar '\\' ++ (escString cs ++ '"' :: rest)
          = '\\' :: '\\' :: (escString cs ++ '"' :: rest) from rfl, parseStrBody.eq_def]
      simp [escDecode?, ih rest]
    by_cases h3 : c = '\n'
    · subst h3
      rw [show escChar '\n' ++ (escString cs ++ '"' :: rest)
          = '\\' :: 'n' :: (escString cs ++ '"' :: rest) from rfl, parseStrBody.eq_def]
      simp [escDecode?, ih rest]
    by_cases h4 : c = '\t'
    · subst h4
      rw [show escChar '\t' ++ (escString cs ++ '"' :: rest)
          = '\\' :: 't' :: (escString cs ++ '"' :: rest) from rfl, parseStrBody.eq_def]
      simp [escDecode?, ih rest]
    by_cases h5 : c = '\r'
    · subst h5
      rw [show escChar '\r' ++ (escString cs ++ '"' :: rest)
          = '\\' :: 'r' :: (escString cs ++ '"' :: rest) from rfl, parseStrBody.eq_def]
      simp [escDecode?, ih rest]
    by_cases h6 : c = '\x08'
    · subst h6
      rw [show escChar '\x08' ++ (escString cs ++ '"' :: rest)
          = '\\' :: 'b' :: (escString cs ++ '"' :: rest) from rfl, parseStrBody.eq_def]
      simp [escDecode?, ih rest]
    by_cases h7 : c = '\x0c'
    · subst h7
      rw [show escChar '\x0c' ++ (escString cs ++ '"' :: rest)
          = '\\' :: 'f' :: (escString cs ++ '"' :: rest) from rfl, parseStrBody.eq_def]
      simp [escDecode?, ih rest]
    by_cases h8 : c.toNat < 32
    · have ha := hex_roundtrip (c.toNat / 16) (by omega)
      have hb := hex_roundtrip (c.toNat % 16) (by omega)
      have hn : c.toNat / 16 * 16 + c.toNat % 16 = c.toNat := by omega
      rw [show escChar c ++ (escString cs ++ '"' :: rest) = '\\' :: 'u' :: '0' :: '0' ::
          hexDigitChar (c.toNat / 16) :: hexDigitChar (c.toNat % 16) ::
          (escString cs ++ '"' :: rest) from by
        simp [escChar, h1, h2, h3, h4, h5, h6, h7, h8]]
      rw [parseStrBody.eq_def]
      simp [show hexVal? '0' = some 0 from by decide, ha, hb, hn,
        Char.ofNat_toNat, ih rest]
    · rw [show escChar c ++ (escString cs ++ '"' :: rest)
          = c :: (escString cs ++ '"' :: rest) from by
        simp [escChar, h1, h2, h3, h4, h5, h6, h7, h8]]
      rw [parseStrBody.eq_def]
      simp [h1, h2, h8, ih rest]

/-- Structural induction for `JValue` with membership hypotheses for the
nested lists. -/
theorem JValue.indOn {P : JValue → Prop}
    (hnull : P .jnull) (hbool : ∀ b, P (.jbool b)) (hnum : ∀ n, P (.jnum n))
    (hstr : ∀ s, P (.jstr s))
    (harr : ∀ xs, (∀ x ∈ xs, P x) → P (.jarr xs))
    (hobj : ∀ kvs, (∀ kv ∈ kvs, P kv.2) → P (.jobj kvs)) : ∀ v, P v := by
  have key : ∀ n : Nat, ∀ v : JValue, sizeOf v ≤ n → P v := by
    intro n
    induction n using Nat.strong_induction_on with
    | _ n ih =>
      intro v hv
      cases v with
      | jnull => exact hnull
      | jbool b => exact hbool b
      | jnum m => exact hnum m
      | jstr s => exact hstr s
      | jarr xs =>
        refine harr xs (fun x hx => ?_)
        have h1 : sizeOf x < sizeOf xs := List.sizeOf_lt_of_mem hx
        have h2 : sizeOf (JValue.jarr xs) = 1 + sizeOf xs := by simp
        exact ih (sizeOf x) (by omega) x le_rfl
      | jobj kvs =>
        refine hobj kvs (fun kv hkv => ?_)
        have h1 : sizeOf kv < sizeOf kvs := List.sizeOf_lt_of_mem hkv
        have h2 : sizeOf (JValue.jobj kvs) = 1 + sizeOf kvs := by simp
        have h3 : sizeOf kv.2 < sizeOf kv := by
          obtain ⟨k, w⟩ := kv
          simp
        exact ih (sizeOf kv.2) (by omega) kv.2 le_rfl
  exact fun v => key (sizeOf v) v le_rfl

/-- The fuel needed for a list of array elements is bounded by the length of
its dumped items. -/
theorem sizeElems_le (ind : Nat) (xs : List JValue) :
    ∀ x : JValue, (∀ y ∈ x :: xs, ∀ i, sizeJ y ≤ (dumpChars i y).length) →
      1 + sizeJ x + sizeElems xs ≤ (dumpItems ind x xs).length := by
  induction xs with
  | nil =>
    intro x h
    have hx := h x (List.mem_cons_self x []) (ind + 1)
    simp only [dumpItems, sizeElems, List.length_append, spacesC, List.length_replicate]
    omega
  | cons y ys ih =>
    intro x h
    have hx := h x (List.mem_cons_self x (y :: ys)) (ind + 1)
    have hrec := ih y (fun z hz i => h z (List.mem_cons_of_mem x hz) i)
    simp only [dumpItems, sizeElems, List.length_append, List.length_cons, spacesC,
      List.length_replicate] at hrec ⊢
    omega

/-- The fuel needed for a list of object members is bounded by the length of
its dumped members. -/
theorem sizeMembers_le (ind : Nat) (kvs : List (String × JValue)) :
    ∀ (k : String) (v : JValue),
      (∀ kv ∈ (k, v) :: kvs, ∀ i, sizeJ kv.2 ≤ (dumpChars i kv.2).length) →
      1 + sizeJ v + sizeMembers kvs ≤ (dumpMembers ind k v kvs).length := by
  induction kvs with
  | nil =>
    intro k v h
    have hv := h (k, v) (List.mem_cons_self (k, v) []) (ind + 1)
    simp only at hv
    simp only [dumpMembers, sizeMembers, List.length_append, List.length_cons, spacesC,
      List.length_replicate]
    omega
  | cons kv2 kvs ih =>
    obtain ⟨k2, v2⟩ := kv2
    intro k v h
    have hv := h (k, v) (List.mem_cons_self (k, v) ((k2, v2) :: kvs)) (ind + 1)
    simp only at hv
    have hrec := ih k2 v2 (fun z hz i => h z (List.mem_cons_of_mem (k, v) hz) i)
    simp only [dumpMembers, sizeMembers, List.length_append, List.length_cons, spacesC,
      List.length_replicate] at hrec ⊢
    omega

/-- Skipping whitespace passes over a whitespace head. -/
theorem skipWs_cons_ws (c : Char) (h : isWsC c = true) (cs : List Char) :
    skipWs (c :: cs) = skipWs cs := by
  simp [skipWs, List.dropWhile_cons, h]

/-- Skipping whitespace does not touch a dumped string literal. -/
theorem skipWs_quote (k : String) (cs : List Char) :
    skipWs (quoteChars k ++ cs) = quoteChars k ++ cs := by
  show skipWs (('"' :: (escString k.data ++ ['"'])) ++ cs) = _
  rw [List.cons_append, skipWs_not_ws _ _ (by decide)]
  simp [quoteChars, List.append_assoc]

/-- After the newline that follows `[`, skipping whitespace lands exactly on
the first dumped element. -/
theorem skipWs_items (ind : Nat) (y : JValue) (ys : List JValue) (rest : List Char) :
    skipWs ('\n' :: (dumpItems ind y ys ++ '\n' :: (spacesC (2 * ind) ++ ']' :: rest)))
      = dumpChars (ind + 1) y ++ itemsTail ind ys rest := by
  rw [skipWs_cons_ws '\n' (by decide)]
  cases ys with
  | nil =>
    rw [show dumpItems ind y [] ++ '\n' :: (spacesC (2 * ind) ++ ']' :: rest)
        = spacesC (2 * (ind + 1)) ++ (dumpChars (ind + 1) y ++ itemsTail ind [] rest) from by
      simp [dumpItems, itemsTail, List.append_assoc]]
    rw [skipWs_ws_append _ _ (spacesC_all_ws _), skipWs_dump]
  | cons z zs =>
    rw [show dumpItems ind y (z :: zs) ++ '\n' :: (spacesC (2 * ind) ++ ']' :: rest)
        = spacesC (2 * (ind + 1)) ++
          (dumpChars (ind + 1) y ++ itemsTail ind (z :: zs) rest) from by
      simp [dumpItems, itemsTail, List.append_assoc]]
    rw [skipWs_ws_append _ _ (spacesC_all_ws _), skipWs_dump]

/-- After the newline that follows `{`, skipping whitespace lands exactly on
the first dumped member's key. -/
theorem skipWs_members (ind : Nat) (k : String) (v : JValue)
    (kvs : List (String × JValue)) (rest : List Char) :
    skipWs ('\n' :: (dumpMembers ind k v kvs ++ '\n' :: (spacesC (2 * ind) ++ '\x7d' :: rest)))
      = quoteChars k ++ (':' :: ' ' :: (dumpChars (ind + 1) v ++ membersTail ind kvs rest)) := by
  rw [skipWs_cons_ws '\n' (by decide)]
  cases kvs with
  | nil =>
    rw [show dumpMembers ind k v [] ++ '\n' :: (spacesC (2 * ind) ++ '\x7d' :: rest)
        = spacesC (2 * (ind + 1)) ++ (quoteChars k ++
          (':' :: ' ' :: (dumpChars (ind + 1) v ++ membersTail ind [] rest))) from by
      simp [dumpMembers, membersTail, List.append_assoc]]
    rw [skipWs_ws_append _ _ (spacesC_all_ws _), skipWs_quote]
  | cons kv2 kvs' =>
    obtain ⟨k2, v2⟩ := kv2
    rw [show dumpMembers ind k v ((k2, v2) :: kvs') ++
          '\n' :: (spacesC (2 * ind) ++ '\x7d' :: rest)
        = spacesC (2 * (ind + 1)) ++ (quoteChars k ++
          (':' :: ' ' :: (dumpChars (ind + 1) v ++
            membersTail ind ((k2, v2) :: kvs') rest))) from by
      simp [dumpMembers, membersTail, List.append_assoc]]
    rw [skipWs_ws_append _ _ (spacesC_all_ws _), skipWs_quote]

/-- The element-list parser inverts the dumped items of a non-empty array. -/
theorem parseElems_rt (ind : Nat) (xs : List JValue) :
    ∀ (x : JValue) (f : Nat) (rest : List Char),
      (∀ y ∈ x :: xs, ParsesBack y) →
      1 + sizeJ x + sizeElems xs ≤ f →
      NotDigitStart rest →
      parseElems f (dumpChars (ind + 1) x ++ itemsTail ind xs rest) = some (x :: xs, rest) := by
  induction xs with
  | nil =>
    intro x f rest hp hf hr
    obtain ⟨f', rfl⟩ : ∃ f', f = f' + 1 := ⟨f - 1, by omega⟩
    have hsz : sizeElems ([] : List JValue) = 0 := by simp [sizeElems]
    have hx := hp x (List.mem_cons_self x []) (ind + 1) f' (itemsTail ind [] rest)
      (by omega)
      (by
        intro c hc
        simp [itemsTail] at hc
        rw [← hc]
        decide)
    have hskip : skipWs (itemsTail ind [] rest) = ']' :: rest := by
      show skipWs ('\n' :: (spacesC (2 * ind) ++ ']' :: rest)) = ']' :: rest
      rw [skipWs_cons_ws '\n' (by decide), skipWs_ws_append _ _ (spacesC_all_ws _),
        skipWs_not_ws _ _ (by decide)]
    rw [parseElems.eq_def]
    simp [hx, hskip]
  | cons y ys ih =>
    intro x f rest hp hf hr
    obtain ⟨f', rfl⟩ : ∃ f', f = f' + 1 := ⟨f - 1, by omega⟩
    have hsz : sizeElems (y :: ys) = 1 + sizeJ y + sizeElems ys := by simp [sizeElems]
    have hx := hp x (List.mem_cons_self x (y :: ys)) (ind + 1) f' (itemsTail ind (y :: ys) rest)
      (by omega)
      (by
        intro c hc
        simp [itemsTail] at hc
        rw [← hc]
        decide)
    have hskip1 : skipWs (itemsTail ind (y :: ys) rest)
        = ',' :: '\n' :: (dumpItems ind y ys ++ '\n' :: (spacesC (2 * ind) ++ ']' :: rest)) := by
      show skipWs (',' :: '\n' :: (dumpItems ind y ys ++ '\n' ::
        (spacesC (2 * ind) ++ ']' :: rest))) = _
      rw [skipWs_not_ws _ _ (by decide)]
    have hskip2 := skipWs_items ind y ys rest
    have hrec := ih y f' rest (fun z hz => hp z (List.mem_cons_of_mem x hz)) (by omega) hr
    rw [parseElems.eq_def]
    simp [hx, hskip1, hskip2, hrec]

/-- The member-list parser inverts the dumped members of a non-empty
object. -/
theorem parseMembers_rt (ind : Nat) (kvs : List (String × JValue)) :
    ∀ (k : String) (v : JValue) (f : Nat) (rest : List Char),
      (∀ kv ∈ (k, v) :: kvs, ParsesBack kv.2) →
      1 + sizeJ v + sizeMembers kvs ≤ f →
      NotDigitStart rest →
      parseMembers f (quoteChars k ++
        (':' :: ' ' :: (dumpChars (ind + 1) v ++ membersTail ind kvs rest)))
        = some ((k, v) :: kvs, rest) := by
  induction kvs with
  | nil =>
    intro k v f rest hp hf hr
    obtain ⟨f', rfl⟩ : ∃ f', f = f' + 1 := ⟨f - 1, by omega⟩
    have hv := hp (k, v) (List.mem_cons_self (k, v) []) (ind + 1) f'
      (membersTail ind [] rest)
      (by show sizeJ v ≤ f'; omega)
      (by
        intro c hc
        simp [membersTail] at hc
        rw [← hc]
        decide)
    simp only at hv
    have hskipv : skipWs (' ' :: (dumpChars (ind + 1) v ++ membersTail ind [] rest))
        = dumpChars (ind + 1) v ++ membersTail ind [] rest := by
      rw [skipWs_cons_ws ' ' (by decide), skipWs_dump]
    have hskipt : skipWs (membersTail ind [] rest) = '\x7d' :: rest := by
      show skipWs ('\n' :: (spacesC (2 * ind) ++ '\x7d' :: rest)) = '\x7d' :: rest
      rw [skipWs_cons_ws '\n' (by decide), skipWs_ws_append _ _ (spacesC_all_ws _),
        skipWs_not_ws _ _ (by decide)]
    rw [show quoteChars k ++ (':' :: ' ' :: (dumpChars (ind + 1) v ++ membersTail ind [] rest))
        = '"' :: (escString k.data ++ ('"' :: (':' :: ' ' ::
          (dumpChars (ind + 1) v ++ membersTail ind [] rest)))) from by
      simp [quoteChars, List.append_assoc]]
    rw [parseMembers.eq_def]
    simp [parseStrBody_escString, skipWs_not_ws _ _ (show isWsC ':' = false from by decide),
      hskipv, hv, hskipt]
  | cons kv2 kvs' ih =>
    obtain ⟨k2, v2⟩ := kv2
    intro k v f rest hp hf hr
    obtain ⟨f', rfl⟩ : ∃ f', f = f' + 1 := ⟨f - 1, by omega⟩
    have hsz : sizeMembers ((k2, v2) :: kvs') = 1 + sizeJ v2 + sizeMembers kvs' := by
      simp [sizeMembers]
    have hv := hp (k, v) (List.mem_cons_self (k, v) ((k2, v2) :: kvs')) (ind + 1) f'
      (membersTail ind ((k2, v2) :: kvs') rest)
      (by show sizeJ v ≤ f'; omega)
      (by
        intro c hc
        simp [membersTail] at hc
        rw [← hc]
        decide)
    simp only at hv
    have hskipv : skipWs (' ' :: (dumpChars (ind + 1) v ++
        membersTail ind ((k2, v2) :: kvs') rest))
        = dumpChars (ind + 1) v ++ membersTail ind ((k2, v2) :: kvs') rest := by
      rw [skipWs_cons_ws ' ' (by decide), skipWs_dump]
    have hskipt : skipWs (membersTail ind ((k2, v2) :: kvs') rest)
        = ',' :: '\n' :: (dumpMembers ind k2 v2 kvs' ++ '\n' ::
          (spacesC (2 * ind) ++ '\x7d' :: rest)) := by
      show skipWs (',' :: '\n' :: (dumpMembers ind k2 v2 kvs' ++ '\n' ::
        (spacesC (2 * ind) ++ '\x7d' :: rest))) = _
      rw [skipWs_not_ws _ _ (by decide)]
    have hskipm := skipWs_members ind k2 v2 kvs' rest
    have hrec := ih k2 v2 f' rest (fun z hz => hp z (List.mem_cons_of_mem (k, v) hz))
      (by omega) hr
    rw [show quoteChars k ++ (':' :: ' ' :: (dumpChars (ind + 1) v ++
          membersTail ind ((k2, v2) :: kvs') rest))
        = '"' :: (escString k.data ++ ('"' :: (':' :: ' ' ::
          (dumpChars (ind + 1) v ++ membersTail ind ((k2, v2) :: kvs') rest)))) from by
      simp [quoteChars, List.append_assoc]]
    rw [parseMembers.eq_def]
    simp [parseStrBody_escString, skipWs_not_ws _ _ (show isWsC ':' = false from by decide),
      hskipv, hv, hskipt, hskipm, hrec]

/-- The fuel needed to reparse a value is bounded by the length of its dumped
form. -/
theorem sizeJ_le_length : ∀ v : JValue, ∀ ind, sizeJ v ≤ (dumpChars ind v).length := by
  intro v
  induction v using JValue.indOn with
  | hnull => intro ind; simp [sizeJ, dumpChars]
  | hbool b => intro ind; cases b <;> simp [sizeJ, dumpChars]
  | hnum n =>
    intro ind
    obtain ⟨d, ds, hd, _⟩ := natToDigits_cons n.toNat
    obtain ⟨d', ds', hd', _⟩ := natToDigits_cons n.natAbs
    by_cases hn : n < 0 <;> simp [sizeJ, dumpChars, intChars, hn, hd, hd']
  | hstr s => intro ind; simp [sizeJ, dumpChars, quoteChars]
  | harr xs hxs =>
    intro ind
    cases xs with
    | nil => simp [sizeJ, sizeElems, dumpChars]
    | cons x xs =>
      have := sizeElems_le ind xs x hxs
      simp only [sizeJ, sizeElems, dumpChars, List.length_cons, List.length_append,
        spacesC, List.length_replicate] at this ⊢
      omega
  | hobj kvs hkvs =>
    intro ind
    cases kvs with
    | nil => simp [sizeJ, sizeMembers, dumpChars]
    | cons kv kvs =>
      obtain ⟨k, v⟩ := kv
      have := sizeMembers_le ind kvs k v (by
        intro z hz i
        exact hkvs z hz i)
      simp only [sizeJ, sizeMembers, dumpChars, List.length_cons, List.length_append,
        spacesC, List.length_replicate] at this ⊢
      omega

end ViewDb

namespace ViewDb

/-- Inserting into a list only adds the inserted element. -/
theorem mem_insertBy (le : α → α → Bool) (x z : α) (l : List α)
    (h : z ∈ insertBy le x l) : z = x ∨ z ∈ l := by
  induction l with
  | nil =>
    simp only [insertBy, List.mem_singleton] at h
    exact Or.inl h
  | cons y ys ih =>
    simp only [insertBy] at h
    by_cases hc : le x y = true
    · rw [if_pos hc] at h
      rcases List.mem_cons.mp h with h1 | h2
      · exact Or.inl h1
      · exact Or.inr h2
    · rw [if_neg hc] at h
      rcases List.mem_cons.mp h with h1 | h2
      · exact Or.inr (by simp [h1])
      · rcases ih h2 with h3 | h4
        · exact Or.inl h3
        · exact Or.inr (List.mem_cons.mpr (Or.inr h4))

/-- The insert step of the count-descending sort preserves pairwise
descending order. -/
theorem pairwise_insertBy_counts (x : Value × Nat) (l : List (Value × Nat))
    (h : List.Pairwise (fun p q => q.2 ≤ p.2) l) :
    List.Pairwise (fun p q => q.2 ≤ p.2)
      (insertBy (fun p q => decide (q.2 ≤ p.2)) x l) := by
  induction l with
  | nil => simp [insertBy]
  | cons y ys ih =>
    rw [List.pairwise_cons] at h
    obtain ⟨hy, hys⟩ := h
    simp only [insertBy]
    by_cases hle : y.2 ≤ x.2
    · rw [if_pos (by simpa using hle)]
      refine List.pairwise_cons.mpr ⟨?_, List.pairwise_cons.mpr ⟨hy, hys⟩⟩
      intro z hz
      rcases List.mem_cons.mp hz with rfl | hz'
      · exact hle
      · exact le_trans (hy z hz') hle
    · rw [if_neg (by simpa using hle)]
      refine List.pairwise_cons.mpr ⟨?_, ih hys⟩
      intro z hz
      rcases mem_insertBy _ x z ys hz with rfl | hz'
      · omega
      · exact hy z hz'

/-- The count-descending sort produces pairwise descending counts. -/
theorem pairwise_sortBy_counts (l : List (Value × Nat)) :
    List.Pairwise (fun p q => q.2 ≤ p.2) (sortBy (fun p q => decide (q.2 ≤ p.2)) l) := by
  induction l with
  | nil => simp [sortBy]
  | cons x xs ih => exact pairwise_insertBy_counts x _ ih

/-- Any grouped-count result is ordered by count descending. -/
theorem pairwise_groupByCountDesc (vs : List Value) :
    List.Pairwise (fun p q : Value × Nat => q.2 ≤ p.2) (groupByCountDesc vs) :=
  pairwise_sortBy_counts _

/-- `emitQ` appends the query. -/
theorem emitQ_queries (st : St) (q : String) : (st.emitQ q).queries = st.queries ++ [q] := rfl

/-- `emitL` leaves the queries unchanged. -/
theorem emitL_queries (st : St) (l : String) : (st.emitL l).queries = st.queries := rfl

/-- A string starting (as a literal) with `SELECT` still does after appending
anything. -/
theorem startsSELECT_append (pre x : String) (h6 : 6 ≤ pre.data.length)
    (h : startsSELECT pre = true) : startsSELECT (pre ++ x) = true := by
  unfold startsSELECT at h ⊢
  rw [String.data_append, List.take_append_of_le_length h6]
  exact h

/-- The grouped-count query string is a `SELECT`. -/
theorem startsSELECT_groupQuery (col tname : String) :
    startsSELECT ("SELECT " ++ col ++ ", COUNT(*) as count FROM " ++ tname ++
      " GROUP BY " ++ col ++ " ORDER BY count DESC") = true := by
  simp only [String.append_assoc]
  exact startsSELECT_append "SELECT " _ (by decide) (by decide)

/-- The inner column loop executes no query. -/
theorem dumpCols_queries (l : List (String × Value)) (st : St) :
    (dumpCols l st).1.queries = st.queries := by
  induction l generalizing st with
  | nil => rfl
  | cons p rest ih =>
    obtain ⟨c, v⟩ := p
    simp only [dumpCols]
    cases hf : formatValue c v with
    | ok line => exact ih _
    | error e => rfl

/-- The record loop executes no query. -/
theorem dumpRecords_queries (columns : List String) (rows : List (List Value))
    (i : Nat) (st : St) : (dumpRecords columns rows i st).1.queries = st.queries := by
  induction rows generalizing i st with
  | nil => rfl
  | cons r rs ih =>
    simp only [dumpRecords]
    split
    · rename_i st' h'
      rw [ih]
      have := dumpCols_queries (columns.zip r)
        (st.emitL ("\n--- Record " ++ toString i ++ " ---"))
      rw [h'] at this
      exact this
    · rename_i st' e h'
      have := dumpCols_queries (columns.zip r)
        (st.emitL ("\n--- Record " ++ toString i ++ " ---"))
      rw [h'] at this
      exact this

/-- Appending one `SELECT` query preserves `AllSel`. -/
theorem AllSel_append_one {qs : List String} {q : String}
    (h : AllSel qs) (hq : startsSELECT q = true) : AllSel (qs ++ [q]) := by
  intro x hx
  rcases List.mem_append.mp hx with h1 | h2
  · exact h x h1
  · rw [List.mem_singleton.mp h2]
    exact hq

/-- One table dump only executes `SELECT` queries. -/
theorem dumpTable_allSel (db : DB) (n : String) (st : St) (h : AllSel st.queries) :
    AllSel (dumpTable db n st).1.queries := by
  have hcnt : startsSELECT ("SELECT COUNT(*) FROM " ++ n) = true :=
    startsSELECT_append _ _ (by decide) (by decide)
  have hsel : startsSELECT ("SELECT * FROM " ++ n) = true :=
    startsSELECT_append _ _ (by decide) (by decide)
  simp only [dumpTable]
  split
  · exact AllSel_append_one h hcnt
  · rename_i t heq
    split
    · exact AllSel_append_one (AllSel_append_one h hcnt) hsel
    · rw [dumpRecords_queries]
      exact AllSel_append_one (AllSel_append_one h hcnt) hsel

/-- The table-dump loop only executes `SELECT` queries. -/
theorem dumpAllTables_allSel (db : DB) (ns : List String) (st : St)
    (h : AllSel st.queries) : AllSel (dumpAllTables db ns st).1.queries := by
  induction ns generalizing st with
  | nil => exact h
  | cons n ns ih =>
    simp only [dumpAllTables]
    split
    · rename_i st' h'
      refine ih st' ?_
      have := dumpTable_allSel db n st h
      rw [h'] at this
      exact this
    · rename_i st' e h'
      have := dumpTable_allSel db n st h
      rw [h'] at this
      exact this

/-- The state returned by a summary `COUNT(*)` query records exactly that
query. -/
theorem countQuery_fst (db : DB) (n : String) (st : St) :
    (countQuery db n st).1 = st.emitQ ("SELECT COUNT(*) FROM " ++ n) := by
  simp only [countQuery]
  split <;> rfl

/-- The state returned by a grouped-count query records exactly that query. -/
theorem groupQuery_fst (db : DB) (tname col : String) (st : St) :
    (groupQuery db tname col st).1 = st.emitQ ("SELECT " ++ col ++
      ", COUNT(*) as count FROM " ++ tname ++ " GROUP BY " ++ col ++
      " ORDER BY count DESC") := by
  simp only [groupQuery]
  split
  · rfl
  · split <;> rfl

/-- Printing grouped-count lines executes no query. -/
theorem emitGroupLines_queries (g : List (Value × Nat)) (st : St) :
    (emitGroupLines g st).queries = st.queries := by
  induction g generalizing st with
  | nil => rfl
  | cons p ps ih => exact ih _

/-- The ClinicalTrial grouped-count block only executes `SELECT` queries. -/
theorem ctGroups_allSel (db : DB) (st : St) (h : AllSel st.queries) :
    AllSel (ctGroups db st).1.queries := by
  simp only [ctGroups]
  split
  · rename_i st1 e h1
    have hst1 : st1 = (groupQuery db "ClinicalTrial" "phase"
        (st.emitL "\n  Clinical Trials by Phase:")).1 := by rw [h1]
    rw [hst1, groupQuery_fst, emitQ_queries, emitL_queries]
    exact AllSel_append_one h (startsSELECT_groupQuery _ _)
  · rename_i st1 g h1
    have hst1 : st1 = (groupQuery db "ClinicalTrial" "phase"
        (st.emitL "\n  Clinical Trials by Phase:")).1 := by rw [h1]
    have hq1 : AllSel st1.queries := by
      rw [hst1, groupQuery_fst, emitQ_queries, emitL_queries]
      exact AllSel_append_one h (startsSELECT_groupQuery _ _)
    split
    · rename_i st2 e2 h2
      have hst2 : st2 = (groupQuery db "ClinicalTrial" "country"
          ((emitGroupLines g st1).emitL "\n  Clinical Trials by Country:")).1 := by rw [h2]
      rw [hst2, groupQuery_fst, emitQ_queries, emitL_queries, emitGroupLines_queries]
      exact AllSel_append_one hq1 (startsSELECT_groupQuery _ _)
    · rename_i st2 g2 h2
      have hst2 : st2 = (groupQuery db "ClinicalTrial" "country"
          ((emitGroupLines g st1).emitL "\n  Clinical Trials by Country:")).1 := by rw [h2]
      rw [emitGroupLines_queries, hst2, groupQuery_fst, emitQ_queries, emitL_queries,
        emitGroupLines_queries]
      exact AllSel_append_one hq1 (startsSELECT_groupQuery _ _)

/-- The Patent grouped-count block only executes `SELECT` queries. -/
theorem patentGroups_allSel (db : DB) (st : St) (h : AllSel st.queries) :
    AllSel (patentGroups db st).1.queries := by
  simp only [patentGroups]
  split
  · rename_i st1 e h1
    have hst1 : st1 = (groupQuery db "Patent" "status"
        (st.emitL "\n  Patents by Status:")).1 := by rw [h1]
    rw [hst1, groupQuery_fst, emitQ_queries, emitL_queries]
    exact AllSel_append_one h (startsSELECT_groupQuery _ _)
  · rename_i st1 g h1
    have hst1 : st1 = (groupQuery db "Patent" "status"
        (st.emitL "\n  Patents by Status:")).1 := by rw [h1]
    have hq1 : AllSel st1.queries := by
      rw [hst1, groupQuery_fst, emitQ_queries, emitL_queries]
      exact AllSel_append_one h (startsSELECT_groupQuery _ _)
    split
    · rename_i st2 e2 h2
      have hst2 : st2 = (groupQuery db "Patent" "ftoFlag"
          ((emitGroupLines g st1).emitL "\n  Patents by FTO Flag:")).1 := by rw [h2]
      rw [hst2, groupQuery_fst, emitQ_queries, emitL_queries, emitGroupLines_queries]
      exact AllSel_append_one hq1 (startsSELECT_groupQuery _ _)
    · rename_i st2 g2 h2
      have hst2 : st2 = (groupQuery db "Patent" "ftoFlag"
          ((emitGroupLines g st1).emitL "\n  Patents by FTO Flag:")).1 := by rw [h2]
      rw [emitGroupLines_queries, hst2, groupQuery_fst, emitQ_queries, emitL_queries,
        emitGroupLines_queries]
      exact AllSel_append_one hq1 (startsSELECT_groupQuery _ _)

/-- The Job grouped-count block only executes `SELECT` queries. -/
theorem jobGroups_allSel (db : DB) (st : St) (h : AllSel st.queries) :
    AllSel (jobGroups db st).1.queries := by
  simp only [jobGroups]
  split
  · rename_i st1 e h1
    have hst1 : st1 = (groupQuery db "Job" "status"
        (st.emitL "\n  Jobs by Status:")).1 := by rw [h1]
    rw [hst1, groupQuery_fst, emitQ_queries, emitL_queries]
    exact AllSel_append_one h (startsSELECT_groupQuery _ _)
  · rename_i st1 g h1
    have hst1 : st1 = (groupQuery db "Job" "status"
        (st.emitL "\n  Jobs by Status:")).1 := by rw [h1]
    rw [emitGroupLines_queries, hst1, groupQuery_fst, emitQ_queries, emitL_queries]
    exact AllSel_append_one h (startsSELECT_groupQuery _ _)

/-- The three conditional grouped-count blocks only execute `SELECT`
queries. -/
theorem summaryGroups_allSel (db : DB) (cc pc jc : Nat) (st : St)
    (h : AllSel st.queries) : AllSel (summaryGroups db cc pc jc st).1.queries := by
  simp only [summaryGroups]
  have step : ∀ (f : DB → St → St × Option String),
      (∀ st', AllSel st'.queries → AllSel (f db st').1.queries) →
      ∀ (c : Nat) (st' : St), AllSel st'.queries →
        AllSel (if c > 0 then f db st' else (st', none)).1.queries := by
    intro f hf c st' h'
    by_cases hc : c > 0
    · rw [if_pos hc]
      exact hf st' h'
    · rw [if_neg hc]
      exact h'
  split
  · rename_i st1 e h1
    have := step _ (fun st' h' => ctGroups_allSel db st' h') cc st h
    rw [h1] at this
    exact this
  · rename_i st1 h1
    have hq1 : AllSel st1.queries := by
      have := step _ (fun st' h' => ctGroups_allSel db st' h') cc st h
      rw [h1] at this
      exact this
    split
    · rename_i st2 e h2
      have := step _ (fun st' h' => patentGroups_allSel db st' h') pc st1 hq1
      rw [h2] at this
      exact this
    · rename_i st2 h2
      have hq2 : AllSel st2.queries := by
        have := step _ (fun st' h' => patentGroups_allSel db st' h') pc st1 hq1
        rw [h2] at this
        exact this
      split
      · rename_i st3 e h3
        have := step _ (fun st' h' => jobGroups_allSel db st' h') jc st2 hq2
        rw [h3] at this
        exact this
      · rename_i st3 h3
        have hq3 : AllSel st3.queries := by
          have := step _ (fun st' h' => jobGroups_allSel db st' h') jc st2 hq2
          rw [h3] at this
          exact this
        rw [emitL_queries]
        exact hq3

/-- The summary section only executes `SELECT` queries. -/
theorem summarySection_allSel (db : DB) (st : St) (h : AllSel st.queries) :
    AllSel (summarySection db st).1.queries := by
  have hsel : ∀ n : String, startsSELECT ("SELECT COUNT(*) FROM " ++ n) = true :=
    fun n => startsSELECT_append _ _ (by decide) (by decide)
  simp only [summarySection]
  split
  · rename_i st1 e h1
    have hst1 : st1 = (countQuery db "ClinicalTrial"
        (((st.emitL ("\n" ++ eq80)).emitL "📈 SUMMARY").emitL eq80)).1 := by rw [h1]
    rw [hst1, countQuery_fst, emitQ_queries, emitL_queries, emitL_queries, emitL_queries]
    exact AllSel_append_one h (hsel _)
  · rename_i st1 cc h1
    have hst1 : st1 = (countQuery db "ClinicalTrial"
        (((st.emitL ("\n" ++ eq80)).emitL "📈 SUMMARY").emitL eq80)).1 := by rw [h1]
    have hq1 : AllSel st1.queries := by
      rw [hst1, countQuery_fst, emitQ_queries, emitL_queries, emitL_queries, emitL_queries]
      exact AllSel_append_one h (hsel _)
    split
    · rename_i st2 e h2
      have hst2 : st2 = (countQuery db "Patent" st1).1 := by rw [h2]
      rw [hst2, countQuery_fst, emitQ_queries]
      exact AllSel_append_one hq1 (hsel _)
    · rename_i st2 pc h2
      have hst2 : st2 = (countQuery db "Patent" st1).1 := by rw [h2]
      have hq2 : AllSel st2.queries := by
        rw [hst2, countQuery_fst, emitQ_queries]
        exact AllSel_append_one hq1 (hsel _)
      split
      · rename_i st3 e h3
        have hst3 : st3 = (countQuery db "Job" st2).1 := by rw [h3]
        rw [hst3, countQuery_fst, emitQ_queries]
        exact AllSel_append_one hq2 (hsel _)
      · rename_i st3 jc h3
        have hst3 : st3 = (countQuery db "Job" st2).1 := by rw [h3]
        have hq3 : AllSel st3.queries := by
          rw [hst3, countQuery_fst, emitQ_queries]
          exact AllSel_append_one hq2 (hsel _)
        split
        · rename_i st4 e h4
          have hst4 : st4 = (countQuery db "Report" st3).1 := by rw [h4]
          rw [hst4, countQuery_fst, emitQ_queries]
          exact AllSel_append_one hq3 (hsel _)
        · rename_i st4 rc h4
          have hst4 : st4 = (countQuery db "Report" st3).1 := by rw [h4]
          have hq4 : AllSel st4.queries := by
            rw [hst4, countQuery_fst, emitQ_queries]
            exact AllSel_append_one hq3 (hsel _)
          refine summaryGroups_allSel db cc pc jc _ ?_
          rw [emitL_queries, emitL_queries, emitL_queries, emitL_queries]
          exact hq4

/-- Every value round-trips: parsing its `indent=2` dump returns it and
consumes exactly its characters. -/
theorem parsesBack : ∀ v : JValue, ParsesBack v := by
  intro v
  induction v using JValue.indOn with
  | hnull =>
    intro ind f rest hf hr
    have h1 : sizeJ JValue.jnull = 1 := by simp [sizeJ]
    obtain ⟨f', rfl⟩ : ∃ f', f = f' + 1 := ⟨f - 1, by omega⟩
    rw [show dumpChars ind JValue.jnull ++ rest = 'n' :: 'u' :: 'l' :: 'l' :: rest from by
      simp [dumpChars]]
    rw [parseVal.eq_def]
    simp
  | hbool b =>
    intro ind f rest hf hr
    have h1 : sizeJ (JValue.jbool b) = 1 := by simp [sizeJ]
    obtain ⟨f', rfl⟩ : ∃ f', f = f' + 1 := ⟨f - 1, by omega⟩
    cases b with
    | false =>
      rw [show dumpChars ind (JValue.jbool false) ++ rest
          = 'f' :: 'a' :: 'l' :: 's' :: 'e' :: rest from by simp [dumpChars]]
      rw [parseVal.eq_def]
      simp
    | true =>
      rw [show dumpChars ind (JValue.jbool true) ++ rest
          = 't' :: 'r' :: 'u' :: 'e' :: rest from by simp [dumpChars]]
      rw [parseVal.eq_def]
      simp
  | hnum n =>
    intro ind f rest hf hr
    have h1 : sizeJ (JValue.jnum n) = 1 := by simp [sizeJ]
    obtain ⟨f', rfl⟩ : ∃ f', f = f' + 1 := ⟨f - 1, by omega⟩
    by_cases hn : n < 0
    · rw [show dumpChars ind (JValue.jnum n) ++ rest
          = '-' :: (natToDigits n.natAbs ++ rest) from by simp [dumpChars, intChars, hn]]
      rw [parseVal.eq_def]
      simp [parseNat_natToDigits n.natAbs rest hr]
      rw [abs_of_nonpos (by omega : n ≤ 0), neg_neg]
    · rw [show dumpChars ind (JValue.jnum n) ++ rest
          = natToDigits n.toNat ++ rest from by simp [dumpChars, intChars, hn]]
      obtain ⟨d, ds, hd, hdig⟩ := natToDigits_cons n.toNat
      obtain ⟨hws, hn', ht', hfc', hq', hm', hb', hob', hrb', hcb'⟩ := digit_head_props hdig
      have hback : d :: (ds ++ rest) = natToDigits n.toNat ++ rest := by
        rw [hd, List.cons_append]
      rw [hd, List.cons_append, parseVal.eq_def]
      simp [hn', ht', hfc', hq', hm', hb', hob', hdig, hback,
        parseNat_natToDigits n.toNat rest hr]
      omega
  | hstr s =>
    intro ind f rest hf hr
    have h1 : sizeJ (JValue.jstr s) = 1 := by simp [sizeJ]
    obtain ⟨f', rfl⟩ : ∃ f', f = f' + 1 := ⟨f - 1, by omega⟩
    rw [show dumpChars ind (JValue.jstr s) ++ rest
        = '"' :: (escString s.data ++ ('"' :: rest)) from by
      simp [dumpChars, quoteChars, List.append_assoc]]
    rw [parseVal.eq_def]
    simp [parseStrBody_escString]
  | harr xs hxs =>
    intro ind f rest hf hr
    cases xs with
    | nil =>
      have h1 : sizeJ (JValue.jarr []) = 1 := by simp [sizeJ, sizeElems]
      obtain ⟨f', rfl⟩ : ∃ f', f = f' + 1 := ⟨f - 1, by omega⟩
      rw [show dumpChars ind (JValue.jarr []) ++ rest = '[' :: (']' :: rest) from by
        simp [dumpChars]]
      rw [parseVal.eq_def]
      simp [skipWs_not_ws _ _ (show isWsC ']' = false from by decide)]
    | cons x xs' =>
      have hsz1 : sizeJ (JValue.jarr (x :: xs')) = 1 + sizeElems (x :: xs') := by
        simp [sizeJ]
      have hsz2 : sizeElems (x :: xs') = 1 + sizeJ x + sizeElems xs' := by
        simp [sizeElems]
      obtain ⟨f', rfl⟩ : ∃ f', f = f' + 1 := ⟨f - 1, by omega⟩
      rw [show dumpChars ind (JValue.jarr (x :: xs')) ++ rest
          = '[' :: ('\n' :: (dumpItems ind x xs' ++ '\n' ::
            (spacesC (2 * ind) ++ ']' :: rest))) from by
        simp [dumpChars, List.append_assoc]]
      rw [parseVal.eq_def]
      obtain ⟨c0, cs0, hc0, hws0, hcr0, hcb0⟩ := dumpChars_head (ind + 1) x
      have hskip' : skipWs ('\n' :: (dumpItems ind x xs' ++ '\n' ::
          (spacesC (2 * ind) ++ ']' :: rest)))
          = c0 :: (cs0 ++ itemsTail ind xs' rest) := by
        rw [skipWs_items ind x xs' rest, hc0, List.cons_append]
      have helems := parseElems_rt ind xs' x f' rest hxs (by omega) hr
      have helems' : parseElems f' (c0 :: (cs0 ++ itemsTail ind xs' rest))
          = some (x :: xs', rest) := by
        rw [← List.cons_append, ← hc0]
        exact helems
      simp [hskip', hcr0, helems']
  | hobj kvs hkvs =>
    intro ind f rest hf hr
    cases kvs with
    | nil =>
      have h1 : sizeJ (JValue.jobj []) = 1 := by simp [sizeJ, sizeMembers]
      obtain ⟨f', rfl⟩ : ∃ f', f = f' + 1 := ⟨f - 1, by omega⟩
      rw [show dumpChars ind (JValue.jobj []) ++ rest = '\x7b' :: ('\x7d' :: rest) from by
        simp [dumpChars]]
      rw [parseVal.eq_def]
      simp [skipWs_not_ws _ _ (show isWsC '\x7d' = false from by decide)]
    | cons kv kvs' =>
      obtain ⟨k, v⟩ := kv
      have hsz1 : sizeJ (JValue.jobj ((k, v) :: kvs'))
          = 1 + sizeMembers ((k, v) :: kvs') := by simp [sizeJ]
      have hsz2 : sizeMembers ((k, v) :: kvs') = 1 + sizeJ v + sizeMembers kvs' := by
        simp [sizeMembers]
      obtain ⟨f', rfl⟩ : ∃ f', f = f' + 1 := ⟨f - 1, by omega⟩
      rw [show dumpChars ind (JValue.jobj ((k, v) :: kvs')) ++ rest
          = '\x7b' :: ('\n' :: (dumpMembers ind k v kvs' ++ '\n' ::
            (spacesC (2 * ind) ++ '\x7d' :: rest))) from by
        simp [dumpChars, List.append_assoc]]
      rw [parseVal.eq_def]
      have hqshape : quoteChars k ++ (':' :: ' ' ::
          (dumpChars (ind + 1) v ++ membersTail ind kvs' rest))
          = '"' :: (escString k.data ++ ('"' :: (':' :: ' ' ::
            (dumpChars (ind + 1) v ++ membersTail ind kvs' rest)))) := by
        simp [quoteChars, List.append_assoc]
      have hskip' : skipWs ('\n' :: (dumpMembers ind k v kvs' ++ '\n' ::
          (spacesC (2 * ind) ++ '\x7d' :: rest)))
          = '"' :: (escString k.data ++ ('"' :: (':' :: ' ' ::
            (dumpChars (ind + 1) v ++ membersTail ind kvs' rest)))) := by
        rw [skipWs_members ind k v kvs' rest, hqshape]
      have hmem := parseMembers_rt ind kvs' k v f' rest hkvs (by omega) hr
      rw [hqshape] at hmem
      simp [hskip', hmem]

/-- The empty string does not parse. -/
theorem parseJson_empty : parseJson "" = none := rfl

/-- `json.loads` inverts `json.dumps(obj, indent=2)`. -/
theorem parseJson_dumps (v : JValue) : parseJson (dumps v) = some v := by
  unfold parseJson dumps
  rw [show (⟨dumpChars 0 v⟩ : String).data = dumpChars 0 v from rfl]
  rw [show (⟨dumpChars 0 v⟩ : String).length = (dumpChars 0 v).length from rfl]
  have h1 : skipWs (dumpChars 0 v) = dumpChars 0 v := by
    have := skipWs_dump 0 v []
    simpa using this
  rw [h1]
  have hf : sizeJ v ≤ (dumpChars 0 v).length + 1 := by
    have := sizeJ_le_length v 0
    omega
  have hmain := parsesBack v 0 ((dumpChars 0 v).length + 1) [] hf
    (by intro c hc; cases hc)
  rw [List.append_nil] at hmain
  rw [hmain]
  simp [skipWs]

/-- On a string that parses, `format_json` returns the dump of the parsed
value; otherwise it returns the input unchanged. -/
theorem format_json_spec (s : String) :
    format_json s = ((parseJson s).map dumps).getD s := by
  unfold format_json
  by_cases hs : s.isEmpty
  · have : s = "" := (String.isEmpty_iff s).mp hs
    subst this
    rw [if_pos hs]
    rfl
  · rw [if_neg hs]
    cases h : parseJson s <;> simp [h]

/-! ### Claim theorems -/

/-- C1: the claim says the connection is closed on every exit path, including
when the summary throws on a missing expected table.  The code has no
try/finally, so on that very path `conn.close()` is never reached: running on
an existing database file with no `ClinicalTrial` table opens the connection,
raises at the first summary query, and terminates with the connection still
open. -/
theorem claim1_connection_not_closed_on_error :
    (view_database true [] "dev.db").error = some "no such table: ClinicalTrial" ∧
    (view_database true [] "dev.db").connOpened = true ∧
    (view_database true [] "dev.db").connClosed = false := by
  decide

/-- C2: for a missing database file, `view_database` prints exactly the
"not found" message and returns normally, with no connection opened, no query
executed, and no exception. -/
theorem claim2_missing_file_early_return (db : DB) (db_path : String) :
    view_database false db db_path =
      { lines := ["❌ Database not found at: " ++ db_path], queries := [],
        connOpened := false, connClosed := false, error := none } := rfl

/-- C3: a string value longer than 100 characters in a column not named
`trace` or `data` is printed as its first 100 characters plus the `...`
marker, and the printed prefix is never the full original text. -/
theorem claim3_truncation (col s : String) (h1 : col ≠ "trace") (h2 : col ≠ "data")
    (h3 : s.length > 100) :
    formatValue col (.vtext s) = .ok ("  " ++ col ++ ": " ++ pyTake 100 s ++ "...") ∧
    pyTake 100 s ≠ s := by
  have e1 : (col == "trace") = false := beq_eq_false_iff_ne.mpr h1
  have e2 : (col == "data") = false := beq_eq_false_iff_ne.mpr h2
  constructor
  · simp [formatValue, e1, e2, h3]
  · intro heq
    have : (pyTake 100 s).length = s.length := by rw [heq]
    rw [show (pyTake 100 s).length = (s.data.take 100).length from rfl,
      List.length_take] at this
    have : min 100 s.data.length = s.data.length := this
    have hlen : s.length = s.data.length := rfl
    omega

/-- C3 witness: a concrete 101-character value in a column named `name`. -/
theorem claim3_truncation_witness :
    ("name" ≠ "trace") ∧ ("name" ≠ "data") ∧ (aas.length > 100) ∧
    (formatValue "name" (.vtext aas) =
        .ok ("  " ++ "name" ++ ": " ++ pyTake 100 aas ++ "...") ∧
      pyTake 100 aas ≠ aas) :=
  ⟨by decide, by decide, by decide,
    claim3_truncation "name" aas (by decide) (by decide) (by decide)⟩

/-- C4: a non-empty string value in a column named exactly `trace` or `data`
is printed as its character count only; the printed line is a function of the
length alone (so no payload content can appear), and this holds with no bound
on the length, so it takes priority over the 100-character truncation rule. -/
theorem claim4_opaque_length_only (col s : String)
    (hcol : col = "trace" ∨ col = "data") (hs : s ≠ "") :
    formatValue col (.vtext s) =
      .ok ("  " ++ col ++ ": [JSON data, " ++ toString s.length ++ " chars]") ∧
    ∀ s' : String, s'.length = s.length → s' ≠ "" →
      formatValue col (.vtext s') = formatValue col (.vtext s) := by
  have hc : (col == "trace" || col == "data") = true := by
    rcases hcol with rfl | rfl <;> simp
  have hform : ∀ u : String, u ≠ "" → formatValue col (.vtext u) =
      .ok ("  " ++ col ++ ": [JSON data, " ++ toString u.length ++ " chars]") := by
    intro u hu
    have ht : truthy (.vtext u) = true := by
      simp only [truthy, Bool.not_eq_true', ← Bool.not_eq_true, String.isEmpty_iff]
      exact hu
    simp only [formatValue, hc, ht, Bool.and_self, if_pos]
  refine ⟨hform s hs, fun s' hlen hs' => ?_⟩
  rw [hform s' hs', hform s hs, hlen]

/-- C4 witness: the `trace` column with the concrete value `"abc"`. -/
theorem claim4_opaque_length_only_witness :
    ("trace" = "trace" ∨ ("trace" : String) = "data") ∧ ("abc" : String) ≠ "" ∧
    (formatValue "trace" (.vtext "abc") =
        .ok ("  " ++ "trace" ++ ": [JSON data, " ++ toString ("abc" : String).length ++
          " chars]") ∧
      ∀ s' : String, s'.length = ("abc" : String).length → s' ≠ "" →
        formatValue "trace" (.vtext s') = formatValue "trace" (.vtext "abc")) :=
  ⟨Or.inl rfl, by decide,
    claim4_opaque_length_only "trace" "abc" (Or.inl rfl) (by decide)⟩

/-- C5: every grouped-count summary result is ordered by count descending
(adjacent and non-adjacent pairs alike, via `Pairwise`); and on the spec's
concrete example database — `ClinicalTrial` phases with multiplicities
Phase 1 ↦ 2, Phase 2 ↦ 1 — the run prints `    Phase 1: 2` strictly before
`    Phase 2: 1`. -/
theorem claim5_grouped_counts_descending :
    (∀ vs : List Value,
      List.Pairwise (fun p q : Value × Nat => q.2 ≤ p.2) (groupByCountDesc vs)) ∧
    ("    Phase 1: 2" ∈ (view_database true exampleDb "dev.db").lines ∧
     "    Phase 2: 1" ∈ (view_database true exampleDb "dev.db").lines ∧
     (view_database true exampleDb "dev.db").lines.indexOf "    Phase 1: 2" <
       (view_database true exampleDb "dev.db").lines.indexOf "    Phase 2: 1") :=
  ⟨pairwise_groupByCountDesc, by decide⟩

/-- C6: with `ClinicalTrial`, `Patent` and `Job` present but `Report` absent,
the summary section executes the four `COUNT(*)` queries, raises
`no such table: Report` at the `Report` count query, and emits only the three
SUMMARY banner lines — no entity count line (in particular neither the Jobs
nor the Reports line) is printed; and the full run on such a database
terminates with that error and never prints a `  Jobs:` or `  Reports:`
line. -/
theorem claim6_missing_report_fatal :
    (∀ (db : DB) (st : St) (ct pt jt : Table),
      lookupTable db "ClinicalTrial" = some ct →
      lookupTable db "Patent" = some pt →
      lookupTable db "Job" = some jt →
      lookupTable db "Report" = none →
      summarySection db st =
        ({ lines := st.lines ++ ["\n" ++ eq80, "📈 SUMMARY", eq80],
           queries := st.queries ++
             ["SELECT COUNT(*) FROM " ++ "ClinicalTrial",
              "SELECT COUNT(*) FROM " ++ "Patent",
              "SELECT COUNT(*) FROM " ++ "Job",
              "SELECT COUNT(*) FROM " ++ "Report"] },
         some "no such table: Report")) ∧
    ((view_database true noReportDb "dev.db").error = some "no such table: Report" ∧
     ∀ l ∈ (view_database true noReportDb "dev.db").lines,
       l.data.take 7 ≠ "  Jobs:".data ∧ l.data.take 10 ≠ "  Reports:".data) := by
  constructor
  · intro db st ct pt jt hct hpt hjt hrep
    simp [summarySection, countQuery, hct, hpt, hjt, hrep, St.emitL, St.emitQ,
      List.append_assoc]
  · decide

/-- C6 witness: the concrete `Report`-less database. -/
theorem claim6_missing_report_fatal_witness :
    lookupTable noReportDb "ClinicalTrial" = some ctEmpty ∧
    lookupTable noReportDb "Patent" = some patentEmpty ∧
    lookupTable noReportDb "Job" = some jobEmpty ∧
    lookupTable noReportDb "Report" = none ∧
    summarySection noReportDb { lines := [], queries := [] } =
      ({ lines := [] ++ ["\n" ++ eq80, "📈 SUMMARY", eq80],
         queries := [] ++
           ["SELECT COUNT(*) FROM " ++ "ClinicalTrial",
            "SELECT COUNT(*) FROM " ++ "Patent",
            "SELECT COUNT(*) FROM " ++ "Job",
            "SELECT COUNT(*) FROM " ++ "Report"] },
       some "no such table: Report") :=
  ⟨rfl, rfl, rfl, rfl,
    claim6_missing_report_fatal.1 noReportDb { lines := [], queries := [] }
      ctEmpty patentEmpty jobEmpty rfl rfl rfl rfl⟩

/-- C7: a catalogued table with zero rows is dumped as its banner followed by
the `  (No records)` marker and nothing else: no column line and no record
divider is printed. -/
theorem claim7_empty_table_no_records (db : DB) (n : String) (t : Table) (st : St)
    (hl : lookupTable db n = some t) (hr : t.rows = []) :
    dumpTable db n st =
      ({ lines := st.lines ++ ["\n" ++ eq80,
           "📋 " ++ n.toUpper ++ " (" ++ toString (0 : Nat) ++ " records)", eq80,
           "  (No records)"],
         queries := st.queries ++
           ["SELECT COUNT(*) FROM " ++ n, "SELECT * FROM " ++ n] },
       none) := by
  simp [dumpTable, hl, hr, print_table_header, St.emitL, St.emitQ, List.append_assoc]

/-- C7 witness: the empty `Job` table of the concrete database. -/
theorem claim7_empty_table_no_records_witness :
    lookupTable noReportDb "Job" = some jobEmpty ∧
    jobEmpty.rows = [] ∧
    dumpTable noReportDb "Job" { lines := [], queries := [] } =
      ({ lines := [] ++ ["\n" ++ eq80,
           "📋 " ++ ("Job" : String).toUpper ++ " (" ++ toString (0 : Nat) ++ " records)",
           eq80, "  (No records)"],
         queries := [] ++
           ["SELECT COUNT(*) FROM " ++ "Job", "SELECT * FROM " ++ "Job"] },
       none) :=
  ⟨rfl, rfl,
    claim7_empty_table_no_records noReportDb "Job" jobEmpty
      { lines := [], queries := [] } rfl rfl⟩

/-- C9: every SQL string the run ever passes to `cursor.execute` is a
`SELECT` statement — the tool reads the database and never mutates it. -/
theorem claim9_read_only (fe : Bool) (db : DB) (db_path : String) :
    ∀ q ∈ (view_database fe db db_path).queries, startsSELECT q = true := by
  cases fe with
  | false => intro q hq; cases hq
  | true =>
    simp only [view_database, if_pos]
    have h0 : AllSel (St.mk ["🔍 Connecting to database: " ++ db_path ++ "\n"] []).queries := by
      intro q hq
      cases hq
    have hinit : AllSel (((St.mk ["🔍 Connecting to database: " ++ db_path ++ "\n"] []).emitQ
        "SELECT name FROM sqlite_master WHERE type='table' ORDER BY name").emitL
        ("📊 Found " ++ toString (sortBy strLe (db.map (fun t => t.name))).length ++
          " tables: " ++ String.intercalate ", " (sortBy strLe (db.map (fun t => t.name))) ++
          "\n")).queries := by
      rw [emitL_queries, emitQ_queries]
      refine AllSel_append_one h0 ?_
      decide
    split
    · rename_i st' e h'
      have := dumpAllTables_allSel db (sortBy strLe (db.map (fun t => t.name))) _ hinit
      rw [h'] at this
      exact this
    · rename_i st' h'
      have hst' : AllSel st'.queries := by
        have := dumpAllTables_allSel db (sortBy strLe (db.map (fun t => t.name))) _ hinit
        rw [h'] at this
        exact this
      split
      · rename_i st'' e h''
        have := summarySection_allSel db st' hst'
        rw [h''] at this
        exact this
      · rename_i st'' h''
        have := summarySection_allSel db st' hst'
        rw [h''] at this
        exact this

/-- C8: `format_json` is total (the bare `except` catches every parse
failure): on any string that parses as JSON it returns the `indent=2`
pretty-printing of the parsed structure, and on any string that does not
parse (including the empty string, skipped by the `if json_str:` guard) it
returns the input unchanged. -/
theorem claim8_format_json_total (s : String) :
    (∀ v : JValue, parseJson s = some v → format_json s = dumps v) ∧
    (parseJson s = none → format_json s = s) := by
  constructor
  · intro v hv
    rw [format_json_spec, hv]
    rfl
  · intro hn
    rw [format_json_spec, hn]
    rfl

/-- C8 witness: a parsing input and a non-parsing input. -/
theorem claim8_format_json_total_witness :
    (parseJson "[1]" = some (.jarr [.jnum 1]) ∧
      format_json "[1]" = dumps (.jarr [.jnum 1])) ∧
    (parseJson "not json" = none ∧ format_json "not json" = "not json") :=
  ⟨⟨by rfl, (claim8_format_json_total "[1]").1 _ (by rfl)⟩,
   ⟨by rfl, (claim8_format_json_total "not json").2 (by rfl)⟩⟩

/-- C10: `format_json` preserves the parsed structure — if the input parses
to `v`, parsing the output parses to the same `v` (only the rendering
changes). -/
theorem claim10_format_json_preserves_structure (s : String) (v : JValue)
    (h : parseJson s = some v) : parseJson (format_json s) = some v := by
  have hs : format_json s = dumps v := by
    rw [format_json_spec, h]
    rfl
  rw [hs, parseJson_dumps]

/-- C10 witness: the concrete input `"[1, 2]"`. -/
theorem claim10_format_json_preserves_structure_witness :
    parseJson "[1, 2]" = some (.jarr [.jnum 1, .jnum 2]) ∧
    parseJson (format_json "[1, 2]") = some (.jarr [.jnum 1, .jnum 2]) :=
  ⟨by rfl, claim10_format_json_preserves_structure "[1, 2]" _ (by rfl)⟩

/-- C9 witness: the catalog query of a concrete run is a `SELECT`. -/
theorem claim9_read_only_witness :
    "SELECT name FROM sqlite_master WHERE type='table' ORDER BY name" ∈
      (view_database true [] "p").queries ∧
    startsSELECT "SELECT name FROM sqlite_master WHERE type='table' ORDER BY name" = true :=
  ⟨by decide, claim9_read_only true [] "p" _ (by decide)⟩

end ViewDb
